import Mathlib

/-!
# LightScheduler: a shallow embedding of `src/LightScheduler.{h,cpp}`

The C++ class `LightScheduler` is embedded as a Lean structure holding the
private fields, and each member function as a function that takes the object
(and the part of the board it touches) and returns the new one.

Machine types:

* `uint8_t`  is `Fin 256`, `uint16_t` is `Fin 65536`;
* `unsigned long` is a 32-bit counter, `Fin 4294967296`; every operation on it
  is written out with an explicit `% 4294967296`;
* `long` (the argument and result type of the platform function `map`) is the
  signed type of the same width; it is an `Int` that is brought back into
  `[-2^31, 2^31)` by `Arduino.toLong` after every operation;
* `int` values (`current`, `onMin`, `offMin`) are `Int`; they are at most
  `255 * 60 + 255 = 15555`, below `2^15`, so no reduction is needed.

Board:

* the PWM output is the list of the `analogWrite` calls made so far, oldest
  first, each a pair (pin, level);
* the EEPROM is a total map from addresses to bytes;
* `millis()` is a parameter `now` of `update`: both reads of the counter made
  inside one call return that value.
-/

/-- The struct `ScheduleTime` of `LightScheduler.h`: two bytes, hour first. -/
structure ScheduleTime where
  hour : Fin 256
  minute : Fin 256
  deriving DecidableEq

/-- The private fields of the class `LightScheduler`, in declaration order. -/
structure LightScheduler where
  _pwmPin : Int
  _onTime : ScheduleTime
  _offTime : ScheduleTime
  _dimDurationMinutes : Fin 65536
  _lightOn : Bool
  _dimming : Bool
  _dimStartTime : Fin 4294967296
  _brightness : Fin 256
  deriving DecidableEq

/-- The calls of `analogWrite` made so far, oldest first: (pin, level). -/
abbrev PwmLog := List (Int × Nat)

/-- The byte-addressable non-volatile store. -/
abbrev Store := Int → Fin 256

namespace Arduino

/-- Modelled from the spec: the platform function `analogWrite` is not part of
the repository sources. Spec 6 gives the output sink as `write(channel, level)`
with no result; here a call is recorded at the end of the log. -/
def analogWrite (log : PwmLog) (pin : Int) (value : Nat) : PwmLog :=
  log ++ [(pin, value)]

/-- Conversion of an integer to the 32-bit signed type `long`
(two-complement reduction into `[-2^31, 2^31)`). -/
def toLong (z : Int) : Int :=
  (z + 2147483648) % 4294967296 - 2147483648

/-- The cast `(uint8_t)` of a `long`: the value modulo 256. -/
def toUint8 (z : Int) : Fin 256 :=
  ⟨(z % 256).toNat, by omega⟩

/-- Modelled from the spec: the platform function `map` is not part of the
repository sources. Spec 4.1 step 4 describes it as the linear interpolation
of `x` from `[in_min, in_max]` to `[out_min, out_max]`, truncated to an
integer, and spec 9 fixes the original integer width. The formula is the one
of the platform reference,
`(x - in_min) * (out_max - out_min) / (in_max - in_min) + out_min`,
every operand and every intermediate result being a 32-bit `long` and the
division truncating toward zero. A zero divisor gives no result. -/
def map (x in_min in_max out_min out_max : Int) : Option Int :=
  let num := toLong (toLong (toLong x - toLong in_min)
              * toLong (toLong out_max - toLong out_min))
  let den := toLong (toLong in_max - toLong in_min)
  if den = 0 then none
  else some (toLong (toLong (num.tdiv den) + toLong out_min))

/-- The size in bytes of a `ScheduleTime` (two `uint8_t`, no padding). -/
def sizeofScheduleTime : Int := 2

/-- Modelled from the spec: the platform object `EEPROM` is not part of the
repository sources. Spec 6 gives `put(address, bytes)` over a byte-addressable
region; the bytes of a `ScheduleTime` are its hour, then its minute. -/
def EEPROM_put (e : Store) (idx : Int) (t : ScheduleTime) : Store :=
  Function.update (Function.update e idx t.hour) (idx + 1) t.minute

/-- Modelled from the spec: the inverse of `EEPROM_put`, `get(address)` of
spec 6, reading the two bytes of a `ScheduleTime`. -/
def EEPROM_get (e : Store) (idx : Int) : ScheduleTime :=
  { hour := e idx, minute := e (idx + 1) }

end Arduino

namespace LightScheduler

open Arduino

/-- The constructor `LightScheduler::LightScheduler(pwmPin, dimDurationMinutes)`;
`pinMode` does not touch the PWM level, `analogWrite(_pwmPin, 0)` does. -/
def new (log : PwmLog) (pwmPin : Int) (dimDurationMinutes : Fin 65536 := 60) :
    LightScheduler × PwmLog :=
  let s : LightScheduler :=
    { _pwmPin := pwmPin
      _dimDurationMinutes := dimDurationMinutes
      _lightOn := false
      _dimming := false
      _dimStartTime := 0
      _brightness := 0
      _onTime := { hour := 0, minute := 0 }
      _offTime := { hour := 0, minute := 0 } }
  (s, analogWrite log s._pwmPin 0)

/-- The member `setOnTime`. -/
def setOnTime (s : LightScheduler) (hour minute : Fin 256) : LightScheduler :=
  { s with _onTime := { hour := hour, minute := minute } }

/-- The member `setOffTime`. -/
def setOffTime (s : LightScheduler) (hour minute : Fin 256) : LightScheduler :=
  { s with _offTime := { hour := hour, minute := minute } }

/-- The member `setDimDuration`. -/
def setDimDuration (s : LightScheduler) (minutes : Fin 65536) : LightScheduler :=
  { s with _dimDurationMinutes := minutes }

/-- The member `getOnTime`. -/
def getOnTime (s : LightScheduler) : ScheduleTime := s._onTime

/-- The member `getOffTime`. -/
def getOffTime (s : LightScheduler) : ScheduleTime := s._offTime

/-- The member `saveToEEPROM`: two `EEPROM.put`, the object is returned as it is
left by the call. -/
def saveToEEPROM (s : LightScheduler) (e : Store) (address : Int := 0) :
    LightScheduler × Store :=
  let e1 := EEPROM_put e address s._onTime
  let e2 := EEPROM_put e1 (address + sizeofScheduleTime) s._offTime
  (s, e2)

/-- The member `loadFromEEPROM`: two `EEPROM.get` into the two times. -/
def loadFromEEPROM (s : LightScheduler) (e : Store) (address : Int := 0) :
    LightScheduler :=
  let s1 := { s with _onTime := EEPROM_get e address }
  { s1 with _offTime := EEPROM_get e (address + sizeofScheduleTime) }

/-- The private member `_isInOnWindow`. -/
def _isInOnWindow (s : LightScheduler) (h m : Fin 256) : Bool :=
  let current : Int := (h.val : Int) * 60 + (m.val : Int)
  let onMin : Int := (s._onTime.hour.val : Int) * 60 + (s._onTime.minute.val : Int)
  let offMin : Int := (s._offTime.hour.val : Int) * 60 + (s._offTime.minute.val : Int)
  if onMin = offMin then false
  else if onMin < offMin then
    decide (current ≥ onMin) && decide (current < offMin)
  else
    decide (current ≥ onMin) || decide (current < offMin)

/-- The local `elapsed` of `update`: `millis() - _dimStartTime` on 32 bits. -/
def elapsedMs (now start : Fin 4294967296) : Nat :=
  (now.val + 4294967296 - start.val) % 4294967296

/-- The local `dimDurationMs` of `update`:
`(unsigned long)_dimDurationMinutes * 60000UL` on 32 bits. -/
def dimDurationMs (minutes : Fin 65536) : Nat :=
  (minutes.val * 60000) % 4294967296

/-- The member `update`, with `now` the value of `millis()` during the call.
The result is `none` exactly when `map` divides by zero. -/
def update (s : LightScheduler) (log : PwmLog) (now : Fin 4294967296)
    (currentHour currentMinute : Fin 256) : Option (LightScheduler × PwmLog) :=
  if s._isInOnWindow currentHour currentMinute then
    let s1 := if !s._lightOn then { s with _dimming := false, _lightOn := true } else s
    if !s1._dimming then
      let s2 := { s1 with _brightness := 255 }
      some (s2, analogWrite log s2._pwmPin s2._brightness.val)
    else
      some (s1, log)
  else if s._lightOn then
    let s1 := if !s._dimming then { s with _dimming := true, _dimStartTime := now } else s
    let elapsed := elapsedMs now s1._dimStartTime
    let total := dimDurationMs s1._dimDurationMinutes
    if elapsed < total then
      (map elapsed 0 total 255 0).map fun v =>
        let s2 := { s1 with _brightness := toUint8 v }
        (s2, analogWrite log s2._pwmPin s2._brightness.val)
    else
      let s2 := { s1 with _brightness := 0 }
      some ({ s2 with _dimming := false, _lightOn := false },
            analogWrite log s2._pwmPin 0)
  else
    some (s, log)

/-- The member `isOn`. -/
def isOn (s : LightScheduler) : Bool := s._lightOn

/-- The member `isDimming`. -/
def isDimming (s : LightScheduler) : Bool := s._dimming

/-- The member `getBrightness`. -/
def getBrightness (s : LightScheduler) : Fin 256 := s._brightness

/-- A sequence of `update` calls, each with its clock value, hour and minute. -/
def runUpdates (st : LightScheduler × PwmLog) :
    List (Fin 4294967296 × Fin 256 × Fin 256) → Option (LightScheduler × PwmLog)
  | [] => some st
  | (now, h, m) :: rest =>
    (update st.1 st.2 now h m).bind fun st1 => runUpdates st1 rest

end LightScheduler

/-- The minute of the day `hour * 60 + minute`, as computed for the three
`int` locals of `_isInOnWindow`. -/
def minuteOfDay (hour minute : Fin 256) : Int :=
  (hour.val : Int) * 60 + (minute.val : Int)

/-- The on-minute of a scheduler. -/
def LightScheduler.onMin (s : LightScheduler) : Int :=
  minuteOfDay s._onTime.hour s._onTime.minute

/-- The off-minute of a scheduler. -/
def LightScheduler.offMin (s : LightScheduler) : Int :=
  minuteOfDay s._offTime.hour s._offTime.minute

/-- A time of day in range: hour in 0..23 and minute in 0..59. -/
def validTime (hour minute : Fin 256) : Prop :=
  hour.val < 24 ∧ minute.val < 60

instance (hour minute : Fin 256) : Decidable (validTime hour minute) := by
  unfold validTime; infer_instance


namespace LightScheduler

/-- The state reached by `update` inside the on-window from a state that is
not dimming: light on, dimming flag clear, full brightness. -/
def fullOn (s : LightScheduler) : LightScheduler :=
  { s with _lightOn := true, _dimming := false, _brightness := 255 }

/-- The state in which `update` computes the fade: the dimming flag is set,
and the start time is the clock value of the call when the flag was clear. -/
def startDimming (s : LightScheduler) (now : Fin 4294967296) : LightScheduler :=
  if s._dimming then s else { s with _dimming := true, _dimStartTime := now }

end LightScheduler

/-- A scheduler on pin 9 as left by the constructor, then `setDimDuration(30)`:
on-time and off-time both 00:00. -/
def exampleUnset : LightScheduler :=
  (LightScheduler.new [] 9 60).1.setDimDuration 30

/-- A same-day schedule: on 08:00, off 22:00, 60-minute fade, never updated,
but with the dimming flag set although the light is off. -/
def exampleDay : LightScheduler :=
  { ((LightScheduler.new [] 9 60).1.setOnTime 8 0).setOffTime 22 0 with _dimming := true }

/-- An overnight schedule: on 20:00, off 06:00, 60-minute fade. -/
def exampleNight : LightScheduler :=
  ((LightScheduler.new [] 9 60).1.setOnTime 20 0).setOffTime 6 0

/-- Two different stored times with the same minute of the day:
on 01:00, off 00:60. -/
def exampleAlias : LightScheduler :=
  ((LightScheduler.new [] 9 60).1.setOnTime 1 0).setOffTime 0 60

/-- The schedule on 08:00, off 22:00 with a 141-minute fade, as configured by
the setters on a freshly constructed scheduler. -/
def exampleFade141 : LightScheduler :=
  (((LightScheduler.new [] 9 60).1.setOnTime 8 0).setOffTime 22 0).setDimDuration 141

/-- The scheduler `exampleFade141` while fading: light on, dimming since clock
value 1000, brightness `b`. -/
def fading141 (b : Fin 256) : LightScheduler :=
  { exampleFade141 with _lightOn := true, _dimming := true, _dimStartTime := 1000,
                        _brightness := b }

/-- The schedule on 08:00, off 22:00 with a 280-minute fade. -/
def exampleFade280 : LightScheduler :=
  (((LightScheduler.new [] 9 60).1.setOnTime 8 0).setOffTime 22 0).setDimDuration 280

/-- The scheduler `exampleFade280` while fading: light on, dimming since clock
value 1000, brightness `b`. -/
def fading280 (b : Fin 256) : LightScheduler :=
  { exampleFade280 with _lightOn := true, _dimming := true, _dimStartTime := 1000,
                        _brightness := b }

/-- The level of a linear fade from 255 to 0 over `total` milliseconds after
`elapsed` milliseconds, in exact arithmetic:
`255 - floor(255 * elapsed / total)`. -/
def fadeLevel (elapsed total : Nat) : Nat :=
  255 - 255 * elapsed / total

/-! ## Sequences of calls on a board -/

/-- One call made on the scheduler by the host program. -/
inductive Op where
  | setOnTime (hour minute : Fin 256)
  | setOffTime (hour minute : Fin 256)
  | setDimDuration (minutes : Fin 65536)
  | saveToEEPROM (address : Int)
  | loadFromEEPROM (address : Int)
  | update (now : Fin 4294967296) (currentHour currentMinute : Fin 256)

/-- The scheduler object together with the board state it acts on: the log of
the PWM writes and the content of the EEPROM. -/
structure Board where
  sched : LightScheduler
  pwm : PwmLog
  eeprom : Store

namespace Board

/-- Construction of the scheduler on a board with PWM log `log0` and EEPROM
content `e0`. -/
def boot (log0 : PwmLog) (e0 : Store) (pwmPin : Int) (dimDurationMinutes : Fin 65536) :
    Board :=
  { sched := (LightScheduler.new log0 pwmPin dimDurationMinutes).1
    pwm := (LightScheduler.new log0 pwmPin dimDurationMinutes).2
    eeprom := e0 }

/-- One call: the member function named by the operation, applied to the
scheduler and the part of the board it takes. -/
def step (b : Board) : Op → Option Board
  | Op.setOnTime hour minute => some { b with sched := b.sched.setOnTime hour minute }
  | Op.setOffTime hour minute => some { b with sched := b.sched.setOffTime hour minute }
  | Op.setDimDuration minutes => some { b with sched := b.sched.setDimDuration minutes }
  | Op.saveToEEPROM address =>
    some { b with sched := (b.sched.saveToEEPROM b.eeprom address).1
                  eeprom := (b.sched.saveToEEPROM b.eeprom address).2 }
  | Op.loadFromEEPROM address =>
    some { b with sched := b.sched.loadFromEEPROM b.eeprom address }
  | Op.update now currentHour currentMinute =>
    (b.sched.update b.pwm now currentHour currentMinute).map
      fun r => { b with sched := r.1, pwm := r.2 }

/-- A sequence of calls, in order. -/
def run (b : Board) : List Op → Option Board
  | [] => some b
  | op :: rest => (b.step op).bind fun b1 => run b1 rest

end Board

namespace LightScheduler

/-- The call `update(h, m)` at clock value `now` stays inside the range of
`long`: if it reaches `map`, then `dimDurationMs` is below `2^31` and the
product `255 * elapsed` is at most `2^31`. -/
def mapInRange (s : LightScheduler) (now : Fin 4294967296) (h m : Fin 256) : Prop :=
  s._isInOnWindow h m = false → s._lightOn = true →
  elapsedMs now (s.startDimming now)._dimStartTime < dimDurationMs s._dimDurationMinutes →
    dimDurationMs s._dimDurationMinutes < 2147483648 ∧
    255 * elapsedMs now (s.startDimming now)._dimStartTime ≤ 2147483648

instance (s : LightScheduler) (now : Fin 4294967296) (h m : Fin 256) :
    Decidable (mapInRange s now h m) := by
  unfold mapInRange; infer_instance

end LightScheduler

/-- The call `op` on the board `b` stays inside the range of `long`. -/
def Op.inRange (b : Board) : Op → Bool
  | Op.update now currentHour currentMinute =>
    decide (b.sched.mapInRange now currentHour currentMinute)
  | _ => true

/-- Every call of the sequence stays inside the range of `long`. -/
def Board.runInRange (b : Board) : List Op → Bool
  | [] => true
  | op :: rest => op.inRange b && (b.step op).all fun b1 => runInRange b1 rest

/-- The schedule on 08:00, off 22:00 with the default 60-minute fade, while
fading: light on, dimming since clock value 1000, brightness `b`. -/
def fading60 (b : Fin 256) : LightScheduler :=
  { ((LightScheduler.new [] 9 60).1.setOnTime 8 0).setOffTime 22 0 with
      _lightOn := true, _dimming := true, _dimStartTime := 1000, _brightness := b }

/-- The schedule on 22:30, off 22:00 (an on-window of 23 hours 30 minutes)
with the default 60-minute fade, as configured by the setters on a freshly
constructed scheduler. -/
def exampleLongWindow : LightScheduler :=
  ((LightScheduler.new [] 9 60).1.setOnTime 22 30).setOffTime 22 0

/-- The scheduler `exampleLongWindow` while fading: light on, dimming since
clock value 60000, brightness `b`. -/
def fadingLongWindow (b : Fin 256) : LightScheduler :=
  { exampleLongWindow with _lightOn := true, _dimming := true, _dimStartTime := 60000,
                           _brightness := b }

/-- The overnight schedule `exampleNight` (on 20:00, off 06:00) with the light
on at full brightness. -/
def exampleNightOn : LightScheduler :=
  exampleNight.fullOn

/-- The calls that configure on 08:00, off 22:00 and reach the start of the
fade: `update(21,59)` at clock value 0, `update(22,0)` at clock value 1000. -/
def exampleOps : List Op :=
  [Op.setOnTime 8 0, Op.setOffTime 22 0, Op.update 0 21 59, Op.update 1000 22 0]

/-- The three relations between the fields and the output that every call
keeps: the dimming flag implies the light-on flag, a light that is off has
brightness 0, and the last level written to the pin is the brightness. -/
def Board.Inv (b : Board) : Prop :=
  (b.sched._dimming = true → b.sched._lightOn = true) ∧
  (b.sched._lightOn = false → b.sched._brightness = 0) ∧
  b.pwm.getLast? = some (b.sched._pwmPin, b.sched._brightness.val)

/-- The board reached from construction on pin 9 (empty log, EEPROM all zero)
by the calls of `exampleOps`: the scheduler is `fading60 255`. -/
def exampleBoardFading : Board :=
  { sched := fading60 255, pwm := [(9, 0), (9, 255), (9, 255)], eeprom := fun _ => 0 }

/-- The board reached from construction on pin 9 by `setDimDuration(30)` alone:
light off, schedule unset. -/
def exampleBoardUnset : Board :=
  { sched := exampleUnset, pwm := [(9, 0)], eeprom := fun _ => 0 }

/-- What a caller can observe of the scheduler after an `update`:
`getBrightness()`, `isOn()` and `isDimming()`. -/
def observe (r : Option (LightScheduler × PwmLog)) : Option (Fin 256 × Bool × Bool) :=
  r.map fun p => (p.1.getBrightness, p.1.isOn, p.1.isDimming)

/-- The calls of `exampleOps` followed by `update(22,30)` at clock value
1801000, thirty minutes into the fade. -/
def exampleOpsHalfFade : List Op :=
  exampleOps ++ [Op.update 1801000 22 30]

/-- The board reached from construction on pin 9 by `exampleOpsHalfFade`: the
scheduler is `fading60 128`. -/
def exampleBoardHalfFade : Board :=
  { sched := fading60 128, pwm := [(9, 0), (9, 255), (9, 255), (9, 128)],
    eeprom := fun _ => 0 }

/-! ## Arithmetic of the fade and the branches of `update` -/

namespace Arduino

theorem toLong_eq_self (z : Int) (hlo : -2147483648 ≤ z) (hhi : z < 2147483648) :
    toLong z = z := by
  unfold toLong
  omega

theorem toUint8_val_of_lt (n : Nat) (h : n < 256) : (toUint8 (n : Int)).val = n := by
  unfold toUint8
  simp only
  omega

end Arduino

theorem fadeLevel_quot_lt (elapsed total : Nat) (h : elapsed < total) :
    255 * elapsed / total < 255 := by
  exact Nat.div_lt_of_lt_mul (by omega)

theorem fadeLevel_pos (elapsed total : Nat) (h : elapsed < total) :
    1 ≤ fadeLevel elapsed total ∧ fadeLevel elapsed total ≤ 255 := by
  have := fadeLevel_quot_lt elapsed total h
  unfold fadeLevel
  generalize 255 * elapsed / total = q at *
  omega

theorem fadeLevel_antitone (e1 e2 total : Nat) (h : e1 ≤ e2) :
    fadeLevel e2 total ≤ fadeLevel e1 total := by
  have : 255 * e1 / total ≤ 255 * e2 / total :=
    Nat.div_le_div_right (Nat.mul_le_mul_left 255 h)
  unfold fadeLevel
  generalize 255 * e1 / total = q1 at *
  generalize 255 * e2 / total = q2 at *
  omega

namespace Arduino

/-- Where no intermediate result leaves the range of `long`, `map` from
`[0, total]` to `[255, 0]` is the exact truncated linear fade. -/
theorem map_fade_eq (elapsed total : Nat) (he : elapsed < total)
    (htot : total < 2147483648) (hno : 255 * elapsed ≤ 2147483648) :
    map elapsed 0 total 255 0 = some ((fadeLevel elapsed total : Nat) : Int) := by
  have hq := fadeLevel_quot_lt elapsed total he
  have h0 : toLong 0 = 0 := by unfold toLong; omega
  have h255 : toLong 255 = 255 := by unfold toLong; omega
  have hm255 : toLong (0 - 255) = -255 := by unfold toLong; omega
  have hx : toLong (elapsed : Int) = elapsed := toLong_eq_self _ (by omega) (by omega)
  have ht : toLong (total : Int) = total := toLong_eq_self _ (by omega) (by omega)
  have hnum : toLong ((elapsed : Int) * -255) = -((255 * elapsed : Nat) : Int) := by
    rw [toLong_eq_self _ (by omega) (by omega)]
    push_cast
    ring
  have hdiv : (-((255 * elapsed : Nat) : Int)).tdiv (total : Int)
      = -(((255 * elapsed / total : Nat)) : Int) := by
    rw [Int.neg_tdiv, Int.tdiv_eq_ediv (by omega) (by omega)]
    rfl
  have hden : (total : Int) ≠ 0 := by omega
  have e1 : toLong (-((255 * elapsed / total : Nat) : Int))
      = -((255 * elapsed / total : Nat) : Int) := by
    generalize 255 * elapsed / total = q at *
    exact toLong_eq_self _ (by omega) (by omega)
  have e2 : toLong (-((255 * elapsed / total : Nat) : Int) + 255)
      = ((fadeLevel elapsed total : Nat) : Int) := by
    unfold fadeLevel
    generalize 255 * elapsed / total = q at *
    rw [toLong_eq_self _ (by omega) (by omega)]
    omega
  show (if toLong (toLong (total : Int) - toLong 0) = 0 then none
        else some (toLong (toLong ((toLong (toLong (toLong (elapsed : Int) - toLong 0)
              * toLong (toLong 0 - toLong 255))).tdiv
                (toLong (toLong (total : Int) - toLong 0))) + toLong 255))) = _
  rw [h0, h255, hm255, hx, ht, sub_zero, sub_zero, hx, ht, hnum, hdiv, e1, e2, if_neg hden]

end Arduino

namespace LightScheduler
open Arduino

/-- The exact product: `dimDurationMs` never wraps. -/
theorem dimDurationMs_eq (minutes : Fin 65536) :
    dimDurationMs minutes = minutes.val * 60000 := by
  unfold dimDurationMs
  have := minutes.isLt
  omega

theorem elapsedMs_self (now : Fin 4294967296) : elapsedMs now now = 0 := by
  unfold elapsedMs
  have := now.isLt
  omega

theorem elapsedMs_of_le (now start : Fin 4294967296) (h : start.val ≤ now.val) :
    elapsedMs now start = now.val - start.val := by
  unfold elapsedMs
  have := now.isLt
  omega

theorem update_outside_on (s : LightScheduler) (log : PwmLog) (now : Fin 4294967296)
    (h m : Fin 256) (hwin : s._isInOnWindow h m = false) (hon : s._lightOn = true) :
    update s log now h m =
      (if elapsedMs now (s.startDimming now)._dimStartTime
            < dimDurationMs s._dimDurationMinutes then
        (map (elapsedMs now (s.startDimming now)._dimStartTime) 0
            (dimDurationMs s._dimDurationMinutes) 255 0).map
          (fun v => ({ s.startDimming now with _brightness := toUint8 v },
                     log ++ [(s._pwmPin, (toUint8 v).val)]))
      else
        some ({ s with _brightness := 0, _dimming := false, _lightOn := false,
                       _dimStartTime := (s.startDimming now)._dimStartTime },
              log ++ [(s._pwmPin, 0)])) := by
  unfold update startDimming
  rw [hwin, hon]
  cases hd : s._dimming
  · simp only [Bool.false_eq_true, if_false, Bool.not_false, if_true, analogWrite]
  · simp only [Bool.false_eq_true, if_false, Bool.not_true, if_true, analogWrite]

/-- Fade completion: with the light on, outside the
on-window and `elapsed ≥ dimDurationMinutes * 60000`, `update` ends with
brightness 0, the light off and the dimming flag clear, and writes 0. -/
theorem update_fade_complete (s : LightScheduler) (log : PwmLog) (now : Fin 4294967296)
    (h m : Fin 256) (hwin : s._isInOnWindow h m = false) (hon : s.isOn = true)
    (hel : s._dimDurationMinutes.val * 60000
            ≤ elapsedMs now (s.startDimming now)._dimStartTime) :
    ∃ s1, update s log now h m = some (s1, log ++ [(s._pwmPin, 0)]) ∧
      s1.getBrightness = 0 ∧ s1.isOn = false ∧ s1.isDimming = false := by
  rw [update_outside_on s log now h m hwin hon, dimDurationMs_eq,
    if_neg (Nat.not_lt.mpr hel)]
  exact ⟨_, rfl, rfl, rfl, rfl⟩

/-- The fade value inside the range of `long`: with the light on,
outside the on-window, `elapsed < dimDurationMinutes * 60000 < 2^31` and
`255 * elapsed ≤ 2^31`, `update` stores and writes
`255 - floor(255 * elapsed / (dimDurationMinutes * 60000))` and leaves the
light on and dimming. -/
theorem update_fade_exact (s : LightScheduler) (log : PwmLog) (now : Fin 4294967296)
    (h m : Fin 256) (hwin : s._isInOnWindow h m = false) (hon : s.isOn = true)
    (hel : elapsedMs now (s.startDimming now)._dimStartTime
            < s._dimDurationMinutes.val * 60000)
    (htot : s._dimDurationMinutes.val * 60000 < 2147483648)
    (hno : 255 * elapsedMs now (s.startDimming now)._dimStartTime ≤ 2147483648) :
    ∃ s1, update s log now h m = some (s1, log ++ [(s._pwmPin, s1.getBrightness.val)]) ∧
      s1.getBrightness.val
        = fadeLevel (elapsedMs now (s.startDimming now)._dimStartTime)
            (s._dimDurationMinutes.val * 60000) ∧
      s1.isOn = true ∧ s1.isDimming = true ∧
      s1._dimStartTime = (s.startDimming now)._dimStartTime := by
  have hlvl := fadeLevel_pos _ _ hel
  rw [update_outside_on s log now h m hwin hon, dimDurationMs_eq, if_pos hel,
    map_fade_eq _ _ hel htot hno]
  have hon2 : (s.startDimming now)._lightOn = true := by
    unfold startDimming; split <;> exact hon
  have hdm2 : (s.startDimming now)._dimming = true := by
    unfold startDimming; split <;> simp_all
  have hb : (toUint8 ((fadeLevel (elapsedMs now (s.startDimming now)._dimStartTime)
      (s._dimDurationMinutes.val * 60000) : Nat) : Int)).val
        = fadeLevel (elapsedMs now (s.startDimming now)._dimStartTime)
            (s._dimDurationMinutes.val * 60000) :=
    toUint8_val_of_lt _ (by omega)
  exact ⟨_, rfl, hb, hon2, hdm2, rfl⟩

/-- For a fade of at most 140 minutes no product inside `map` leaves the range
of `long`, whatever the elapsed time below the total. -/
theorem fade_in_range_of_le_140 (minutes : Fin 65536) (elapsed : Nat)
    (hd : minutes.val ≤ 140) (hel : elapsed < minutes.val * 60000) :
    minutes.val * 60000 < 2147483648 ∧ 255 * elapsed ≤ 2147483648 := by
  omega

end LightScheduler

/-! ## The on-window -/

namespace LightScheduler

theorem isInOnWindow_eq (s : LightScheduler) (h m : Fin 256) :
    s._isInOnWindow h m =
      (if s.onMin = s.offMin then false
       else if s.onMin < s.offMin then
         decide (minuteOfDay h m ≥ s.onMin) && decide (minuteOfDay h m < s.offMin)
       else decide (minuteOfDay h m ≥ s.onMin) || decide (minuteOfDay h m < s.offMin)) := by
  rfl

/-- C1: with all three times in range and `onMin ≠ offMin`, `_isInOnWindow` is
true exactly on the half-open interval `[onMin, offMin)` taken modulo 1440;
for `onMin < offMin` that is `onMin ≤ current < offMin`, for `onMin > offMin`
it is `current ≥ onMin ∨ current < offMin`. -/
theorem isInOnWindow_iff_mod_interval (s : LightScheduler) (h m : Fin 256)
    (hon : validTime s._onTime.hour s._onTime.minute)
    (hoff : validTime s._offTime.hour s._offTime.minute)
    (hcur : validTime h m) (hne : s.onMin ≠ s.offMin) :
    (s._isInOnWindow h m = true ↔
        (minuteOfDay h m - s.onMin) % 1440 < (s.offMin - s.onMin) % 1440) ∧
    (s.onMin < s.offMin →
        (s._isInOnWindow h m = true ↔
          s.onMin ≤ minuteOfDay h m ∧ minuteOfDay h m < s.offMin)) ∧
    (s.onMin > s.offMin →
        (s._isInOnWindow h m = true ↔
          minuteOfDay h m ≥ s.onMin ∨ minuteOfDay h m < s.offMin)) := by
  rw [isInOnWindow_eq]
  unfold validTime at hon hoff hcur
  have e1 : s.onMin = (s._onTime.hour.val : Int) * 60 + (s._onTime.minute.val : Int) := rfl
  have e2 : s.offMin = (s._offTime.hour.val : Int) * 60 + (s._offTime.minute.val : Int) := rfl
  have e3 : minuteOfDay h m = (h.val : Int) * 60 + (m.val : Int) := rfl
  rw [if_neg hne]
  by_cases hlt : s.onMin < s.offMin
  · rw [if_pos hlt]
    simp only [Bool.and_eq_true, decide_eq_true_eq, ge_iff_le]
    refine ⟨?_, fun _ => trivial, fun hgt => by omega⟩
    omega
  · rw [if_neg hlt]
    simp only [Bool.or_eq_true, decide_eq_true_eq, ge_iff_le]
    refine ⟨?_, fun hlt2 => by omega, fun _ => trivial⟩
    omega

theorem isInOnWindow_iff_mod_interval_witness :
    validTime exampleNight._onTime.hour exampleNight._onTime.minute ∧
    validTime exampleNight._offTime.hour exampleNight._offTime.minute ∧
    validTime 23 0 ∧ exampleNight.onMin ≠ exampleNight.offMin ∧
    ((exampleNight._isInOnWindow 23 0 = true ↔
        (minuteOfDay 23 0 - exampleNight.onMin) % 1440
          < (exampleNight.offMin - exampleNight.onMin) % 1440) ∧
    (exampleNight.onMin < exampleNight.offMin →
        (exampleNight._isInOnWindow 23 0 = true ↔
          exampleNight.onMin ≤ minuteOfDay 23 0 ∧ minuteOfDay 23 0 < exampleNight.offMin)) ∧
    (exampleNight.onMin > exampleNight.offMin →
        (exampleNight._isInOnWindow 23 0 = true ↔
          minuteOfDay 23 0 ≥ exampleNight.onMin ∨ minuteOfDay 23 0 < exampleNight.offMin))) :=
  ⟨by decide, by decide, by decide, by decide,
   isInOnWindow_iff_mod_interval exampleNight 23 0 (by decide) (by decide) (by decide) (by decide)⟩

/-- C2: when the on-minute and the off-minute are equal (in particular when
the on-time equals the off-time), `_isInOnWindow` is false at every hour and
minute, for every stored byte values. -/
theorem isInOnWindow_false_of_onMin_eq_offMin (s : LightScheduler) :
    (s.onMin = s.offMin → ∀ h m : Fin 256, s._isInOnWindow h m = false) ∧
    (s._onTime = s._offTime → ∀ h m : Fin 256, s._isInOnWindow h m = false) := by
  have key : s.onMin = s.offMin → ∀ h m : Fin 256, s._isInOnWindow h m = false := by
    intro heq h m
    rw [isInOnWindow_eq, if_pos heq]
  refine ⟨key, fun heq => key ?_⟩
  unfold onMin offMin
  rw [heq]

theorem isInOnWindow_false_of_onMin_eq_offMin_witness :
    exampleAlias.onMin = exampleAlias.offMin ∧ exampleAlias._isInOnWindow 0 30 = false :=
  ⟨by decide, (isInOnWindow_false_of_onMin_eq_offMin exampleAlias).1 (by decide) 0 30⟩

end LightScheduler

/-! ## `update` inside the on-window and with the schedule unset -/

namespace LightScheduler
open Arduino

theorem update_off_outside (s : LightScheduler) (log : PwmLog) (now : Fin 4294967296)
    (h m : Fin 256) (hwin : s._isInOnWindow h m = false) (hoff : s._lightOn = false) :
    update s log now h m = some (s, log) := by
  simp [update, hwin, hoff]

theorem update_inWindow (s : LightScheduler) (log : PwmLog) (now : Fin 4294967296)
    (h m : Fin 256) (hwin : s._isInOnWindow h m = true)
    (hnd : s._dimming = false ∨ s._lightOn = false) :
    update s log now h m = some (s.fullOn, analogWrite log s._pwmPin 255) := by
  obtain ⟨p, ont, offt, d, lo, dm, st, b⟩ := s
  simp only at hnd
  cases lo <;> cases dm <;> simp_all [update, fullOn] <;> rfl

theorem runUpdates_off_disabled (s : LightScheduler) (log : PwmLog)
    (hoff : s._lightOn = false) (hdis : ∀ h m : Fin 256, s._isInOnWindow h m = false) :
    ∀ calls : List (Fin 4294967296 × Fin 256 × Fin 256),
      runUpdates (s, log) calls = some (s, log) := by
  intro calls
  induction calls with
  | nil => rfl
  | cons c rest ih =>
    obtain ⟨now, h, m⟩ := c
    simp only [runUpdates]
    rw [update_off_outside s log now h m (hdis h m) hoff, Option.some_bind]
    exact ih

theorem isInOnWindow_fullOn (s : LightScheduler) (h m : Fin 256) :
    s.fullOn._isInOnWindow h m = s._isInOnWindow h m := rfl

theorem fullOn_fullOn (s : LightScheduler) : s.fullOn.fullOn = s.fullOn := rfl

/-- C3: a scheduler whose light is off and whose on-time equals its off-time
is left unchanged by every sequence of `update` calls, and nothing is written
to the output; a freshly constructed scheduler is such a state, with `isOn()`
false, `isDimming()` false and `getBrightness()` 0. -/
theorem runUpdates_disabled_unchanged (s : LightScheduler) (log : PwmLog)
    (calls : List (Fin 4294967296 × Fin 256 × Fin 256))
    (hoff : s.isOn = false) (heq : s.getOnTime = s.getOffTime) :
    runUpdates (s, log) calls = some (s, log) ∧
    ∀ (log0 : PwmLog) (pin : Int) (d : Fin 65536),
      (LightScheduler.new log0 pin d).1.getOnTime = ⟨0, 0⟩ ∧
      (LightScheduler.new log0 pin d).1.getOffTime = ⟨0, 0⟩ ∧
      runUpdates (LightScheduler.new log0 pin d) calls
        = some (LightScheduler.new log0 pin d) ∧
      (LightScheduler.new log0 pin d).1.isOn = false ∧
      (LightScheduler.new log0 pin d).1.isDimming = false ∧
      (LightScheduler.new log0 pin d).1.getBrightness = 0 := by
  have dis : ∀ t : LightScheduler, t._onTime = t._offTime →
      ∀ h m : Fin 256, t._isInOnWindow h m = false := by
    intro t ht h m
    simp [_isInOnWindow, ht]
  refine ⟨runUpdates_off_disabled s log hoff (dis s heq) calls, ?_⟩
  intro log0 pin d
  refine ⟨rfl, rfl, ?_, rfl, rfl, rfl⟩
  exact runUpdates_off_disabled _ _ rfl (dis _ rfl) calls

theorem runUpdates_disabled_unchanged_witness :
    exampleUnset.isOn = false ∧ exampleUnset.getOnTime = exampleUnset.getOffTime ∧
    runUpdates (exampleUnset, [(9, 0)]) [(0, 0, 0), (5000, 12, 30), (70000, 23, 59)]
      = some (exampleUnset, [(9, 0)]) :=
  ⟨rfl, rfl,
   (runUpdates_disabled_unchanged exampleUnset [(9, 0)] [(0, 0, 0), (5000, 12, 30), (70000, 23, 59)]
      rfl rfl).1⟩

/-- C4: inside the on-window, from a state that is not dimming (light on or
off) or whose light is off (whatever the dimming flag), `update` leaves the
light on, the dimming flag clear and the brightness 255, and writes 255 to
the output pin. -/
theorem update_inWindow_full_brightness (s : LightScheduler) (log : PwmLog)
    (now : Fin 4294967296) (h m : Fin 256)
    (hwin : s._isInOnWindow h m = true)
    (hnd : s.isDimming = false ∨ s.isOn = false) :
    ∃ s1 : LightScheduler,
      update s log now h m = some (s1, log ++ [(s._pwmPin, 255)]) ∧
      s1.isOn = true ∧ s1.isDimming = false ∧ s1.getBrightness = 255 ∧
      s1 = { s with _lightOn := true, _dimming := false, _brightness := 255 } :=
  ⟨s.fullOn, update_inWindow s log now h m hwin hnd, rfl, rfl, rfl, rfl⟩

theorem update_inWindow_full_brightness_witness :
    exampleDay._isInOnWindow 21 59 = true ∧
    (exampleDay.isDimming = false ∨ exampleDay.isOn = false) ∧
    ∃ s1 : LightScheduler,
      update exampleDay [] 77 21 59 = some (s1, [] ++ [(exampleDay._pwmPin, 255)]) ∧
      s1.isOn = true ∧ s1.isDimming = false ∧ s1.getBrightness = 255 ∧
      s1 = { exampleDay with _lightOn := true, _dimming := false, _brightness := 255 } :=
  ⟨by decide, Or.inr rfl,
   update_inWindow_full_brightness exampleDay [] 77 21 59 (by decide) (Or.inr rfl)⟩

/-- C10: for a state that is not dimming and a time inside the on-window, any
number `n ≥ 1` of consecutive `update` calls at that time (whatever the clock
values) ends with brightness 255, the light on and the dimming flag clear,
each call writing 255; and the scheduler after two calls is the scheduler
after one. -/
theorem runUpdates_inWindow_idempotent (s : LightScheduler) (log : PwmLog)
    (h m : Fin 256) (nows : List (Fin 4294967296))
    (hwin : s._isInOnWindow h m = true) (hnd : s.isDimming = false)
    (hn : 1 ≤ nows.length) :
    ∃ s1 : LightScheduler,
      runUpdates (s, log) (nows.map (fun now => (now, h, m)))
        = some (s1, log ++ List.replicate nows.length (s._pwmPin, 255)) ∧
      s1.getBrightness = 255 ∧ s1.isOn = true ∧ s1.isDimming = false ∧
      (∀ (now1 now2 : Fin 4294967296) (log1 : PwmLog),
        runUpdates (s, log1) [(now1, h, m), (now2, h, m)]
          = some (s1, log1 ++ [(s._pwmPin, 255), (s._pwmPin, 255)]) ∧
        runUpdates (s, log1) [(now1, h, m)] = some (s1, log1 ++ [(s._pwmPin, 255)])) := by
  have step : ∀ (t : LightScheduler) (lg : PwmLog) (now : Fin 4294967296),
      t._isInOnWindow h m = true → t._dimming = false →
      update t lg now h m = some (t.fullOn, lg ++ [(t._pwmPin, 255)]) :=
    fun t lg now ht hd => update_inWindow t lg now h m ht (Or.inl hd)
  have many : ∀ (ns : List (Fin 4294967296)) (t : LightScheduler) (lg : PwmLog),
      t._isInOnWindow h m = true → t._dimming = false → 1 ≤ ns.length →
      runUpdates (t, lg) (ns.map (fun now => (now, h, m)))
        = some (t.fullOn, lg ++ List.replicate ns.length (t._pwmPin, 255)) := by
    intro ns
    induction ns with
    | nil => intro t lg _ _ hlen; simp at hlen
    | cons n rest ih =>
      intro t lg ht hd _
      simp only [List.map_cons, runUpdates, step t lg n ht hd, Option.some_bind]
      cases rest with
      | nil => simp [runUpdates]
      | cons n2 rest2 =>
        have := ih t.fullOn (lg ++ [(t._pwmPin, 255)]) ht rfl (by simp)
        rw [this, fullOn_fullOn]
        simp [List.replicate_succ, fullOn]
  refine ⟨s.fullOn, many nows s log hwin hnd hn, rfl, rfl, rfl, ?_⟩
  intro now1 now2 log1
  constructor
  · have := many [now1, now2] s log1 hwin hnd (by simp)
    simpa [List.replicate_succ] using this
  · have := many [now1] s log1 hwin hnd (by simp)
    simpa [List.replicate_succ] using this

theorem runUpdates_inWindow_idempotent_witness :
    exampleNight._isInOnWindow 5 59 = true ∧ exampleNight.isDimming = false ∧
    1 ≤ ([10, 20, 30] : List (Fin 4294967296)).length ∧
    ∃ s1 : LightScheduler,
      runUpdates (exampleNight, [])
          (([10, 20, 30] : List (Fin 4294967296)).map (fun now => (now, 5, 59)))
        = some (s1, [] ++ List.replicate ([10, 20, 30] : List (Fin 4294967296)).length
            (exampleNight._pwmPin, 255)) ∧
      s1.getBrightness = 255 ∧ s1.isOn = true ∧ s1.isDimming = false ∧
      (∀ (now1 now2 : Fin 4294967296) (log1 : PwmLog),
        runUpdates (exampleNight, log1) [(now1, 5, 59), (now2, 5, 59)]
          = some (s1, log1 ++ [(exampleNight._pwmPin, 255), (exampleNight._pwmPin, 255)]) ∧
        runUpdates (exampleNight, log1) [(now1, 5, 59)]
          = some (s1, log1 ++ [(exampleNight._pwmPin, 255)])) :=
  ⟨by decide, rfl, by decide,
   runUpdates_inWindow_idempotent exampleNight [] 5 59 [10, 20, 30] (by decide) rfl (by decide)⟩

end LightScheduler

/-! ## The fade for long durations, and the EEPROM -/

namespace LightScheduler
open Arduino

/-- C5: on 08:00, off 22:00, 141-minute fade; `update(21,59)` then `update(22,0)`
at clock value 1000 start the fade. With the light on and the time 00:20
outside the on-window, the call at clock value 8431000 has
`elapsed = 8430000 < 141 * 60000`, and `update` stores and writes 252, whereas
`255 - floor(255 * elapsed / (141 * 60000))` is 1: the product
`elapsed * (0 - 255)` inside `map` leaves the range of a 32-bit `long`. -/
theorem update_fade_141_overflow :
    runUpdates (exampleFade141, []) [(0, 21, 59), (1000, 22, 0)]
      = some (fading141 255, [(9, 255), (9, 255)]) ∧
    (fading141 255).isOn = true ∧ (fading141 255)._isInOnWindow 0 20 = false ∧
    elapsedMs 8431000 (fading141 255)._dimStartTime = 8430000 ∧
    8430000 < (fading141 255)._dimDurationMinutes.val * 60000 ∧
    update (fading141 255) [] 8431000 0 20 = some (fading141 252, [(9, 252)]) ∧
    fadeLevel 8430000 (141 * 60000) = 1 := by
  refine ⟨by decide, rfl, by decide, by decide, by decide, by decide, by decide⟩

/-- C6: on 08:00, off 22:00, 141-minute fade. After `update(21,59)` and
`update(22,0)` at clock value 1000 the light is dimming; two later calls
outside the on-window, at the increasing clock values 8422504 and 8431000
(elapsed 8421504 and 8430000, both below `141 * 60000`), leave the
brightness at 2 and then at 252: it increases. -/
theorem runUpdates_fade_141_not_monotone :
    runUpdates (exampleFade141, []) [(0, 21, 59), (1000, 22, 0), (8422504, 0, 20)]
      = some (fading141 2, [(9, 255), (9, 255), (9, 2)]) ∧
    runUpdates (exampleFade141, [])
        [(0, 21, 59), (1000, 22, 0), (8422504, 0, 20), (8431000, 0, 20)]
      = some (fading141 252, [(9, 255), (9, 255), (9, 2), (9, 252)]) ∧
    (fading141 2).isDimming = true ∧ (fading141 2)._isInOnWindow 0 20 = false ∧
    (fading141 2).getBrightness < (fading141 252).getBrightness := by
  refine ⟨by decide, by decide, rfl, by decide, by decide⟩

/-- C7: on 08:00, off 22:00, 280-minute fade; `update(21,59)` then `update(22,0)`
at clock value 1000 start the fade. The call `update(2,39)` at clock value
16751000 (elapsed 16750000, below `280 * 60000`) starts with the light on and
ends with brightness 0 while `isOn()` and `isDimming()` are still true. -/
theorem update_fade_280_zero_while_on :
    runUpdates (exampleFade280, []) [(0, 21, 59), (1000, 22, 0)]
      = some (fading280 255, [(9, 255), (9, 255)]) ∧
    (fading280 255).isOn = true ∧ (fading280 255)._isInOnWindow 2 39 = false ∧
    elapsedMs 16751000 (fading280 255)._dimStartTime = 16750000 ∧
    16750000 < dimDurationMs (fading280 255)._dimDurationMinutes ∧
    update (fading280 255) [] 16751000 2 39 = some (fading280 0, [(9, 0)]) ∧
    (fading280 0).getBrightness = 0 ∧ (fading280 0).isOn = true ∧
    (fading280 0).isDimming = true := by
  refine ⟨by decide, rfl, by decide, by decide, by decide, by decide, rfl, rfl, rfl⟩

/-- C8: `saveToEEPROM(address)` followed by `loadFromEEPROM(address)` on a
freshly constructed scheduler over the same store gives that scheduler the
on-time and the off-time of the saving one, for all stored bytes, every base
address and every prior content of the store. -/
theorem loadFromEEPROM_saveToEEPROM (s : LightScheduler) (e : Store) (address : Int)
    (log : PwmLog) (pin : Int) (d : Fin 65536) :
    ((LightScheduler.new log pin d).1.loadFromEEPROM
        (s.saveToEEPROM e address).2 address).getOnTime = s.getOnTime ∧
    ((LightScheduler.new log pin d).1.loadFromEEPROM
        (s.saveToEEPROM e address).2 address).getOffTime = s.getOffTime := by
  have h1 : address ≠ address + 1 := by omega
  have h2 : address ≠ address + 2 := by omega
  have h3 : address ≠ address + 2 + 1 := by omega
  have h4 : address + 1 ≠ address + 2 := by omega
  have h5 : address + 1 ≠ address + 2 + 1 := by omega
  have h6 : address + 2 ≠ address + 2 + 1 := by omega
  constructor
  · simp [loadFromEEPROM, saveToEEPROM, getOnTime, EEPROM_get, EEPROM_put,
      sizeofScheduleTime, Function.update, h1, h2, h3, h4, h5, h6]
  · simp [loadFromEEPROM, saveToEEPROM, getOffTime, EEPROM_get, EEPROM_put,
      sizeofScheduleTime, Function.update, h1, h2, h3, h4, h5, h6]

/-- C9: `saveToEEPROM(address)` leaves in the store the on-hour at `address`,
the on-minute at `address + 1`, the off-hour at `address + 2` and the
off-minute at `address + 3`, leaves every byte outside `address .. address + 3`
as it was, and leaves the scheduler as it was. -/
theorem saveToEEPROM_frame (s : LightScheduler) (e : Store) (address : Int) :
    (s.saveToEEPROM e address).2 address = s._onTime.hour ∧
    (s.saveToEEPROM e address).2 (address + 1) = s._onTime.minute ∧
    (s.saveToEEPROM e address).2 (address + 2) = s._offTime.hour ∧
    (s.saveToEEPROM e address).2 (address + 3) = s._offTime.minute ∧
    (∀ a : Int, a < address ∨ address + 3 < a → (s.saveToEEPROM e address).2 a = e a) ∧
    (s.saveToEEPROM e address).1 = s := by
  have h1 : address ≠ address + 1 := by omega
  have h2 : address ≠ address + 2 := by omega
  have h3 : address ≠ address + 2 + 1 := by omega
  have h4 : address + 1 ≠ address + 2 := by omega
  have h5 : address + 1 ≠ address + 2 + 1 := by omega
  have h6 : address + 3 = address + 2 + 1 := by omega
  refine ⟨?_, ?_, ?_, ?_, ?_, rfl⟩
  · simp [saveToEEPROM, EEPROM_put, sizeofScheduleTime, Function.update, h1, h2, h3]
  · simp [saveToEEPROM, EEPROM_put, sizeofScheduleTime, Function.update, h4, h5]
  · simp [saveToEEPROM, EEPROM_put, sizeofScheduleTime, Function.update]
  · rw [h6]
    simp [saveToEEPROM, EEPROM_put, sizeofScheduleTime, Function.update]
  · intro a ha
    have g1 : a ≠ address := by omega
    have g2 : a ≠ address + 1 := by omega
    have g3 : a ≠ address + 2 := by omega
    have g4 : a ≠ address + 2 + 1 := by omega
    simp [saveToEEPROM, EEPROM_put, sizeofScheduleTime, Function.update, g1, g2, g3, g4]

end LightScheduler

/-! ## Totality and the five paths of `update` -/

namespace Arduino

/-- With a divisor `in_max - in_min` that is a nonzero 32-bit value, `map`
divides and returns a result. -/
theorem map_isSome (x : Int) (total : Nat) (hpos : 0 < total) (hlt : total < 4294967296) :
    ∃ v, map x 0 total 255 0 = some v := by
  have hden : toLong (toLong (total : Int) - toLong 0) ≠ 0 := by
    unfold toLong
    omega
  show ∃ v, (if toLong (toLong (total : Int) - toLong 0) = 0 then none
        else some (toLong (toLong ((toLong (toLong (toLong x - toLong 0)
              * toLong (toLong 0 - toLong 255))).tdiv
                (toLong (toLong (total : Int) - toLong 0))) + toLong 255))) = some v
  rw [if_neg hden]
  exact ⟨_, rfl⟩

end Arduino

namespace LightScheduler
open Arduino

theorem dimDurationMs_lt (minutes : Fin 65536) : dimDurationMs minutes < 4294967296 := by
  rw [dimDurationMs_eq]
  have := minutes.isLt
  omega

theorem update_inWindow_dimming (s : LightScheduler) (log : PwmLog) (now : Fin 4294967296)
    (h m : Fin 256) (hwin : s._isInOnWindow h m = true)
    (hon : s._lightOn = true) (hd : s._dimming = true) :
    update s log now h m = some (s, log) := by
  obtain ⟨p, ont, offt, d, lo, dm, st, b⟩ := s
  simp only at hon hd
  subst hon hd
  simp_all [update]

theorem startDimming_of_dimming (s : LightScheduler) (now : Fin 4294967296)
    (hd : s._dimming = true) : s.startDimming now = s := by
  unfold startDimming
  rw [if_pos hd]

theorem startDimming_of_not_dimming (s : LightScheduler) (now : Fin 4294967296)
    (hd : s._dimming = false) :
    s.startDimming now = { s with _dimming := true, _dimStartTime := now } := by
  unfold startDimming
  rw [hd]
  rfl

/-- The five paths of `update`, each with the scheduler and the output log it
returns. -/
theorem update_cases (s : LightScheduler) (log : PwmLog) (now : Fin 4294967296)
    (h m : Fin 256) :
    (s._isInOnWindow h m = true ∧ (s._dimming = false ∨ s._lightOn = false) ∧
      update s log now h m = some (s.fullOn, log ++ [(s._pwmPin, 255)])) ∨
    (s._isInOnWindow h m = true ∧ s._lightOn = true ∧ s._dimming = true ∧
      update s log now h m = some (s, log)) ∨
    (s._isInOnWindow h m = false ∧ s._lightOn = true ∧
      elapsedMs now (s.startDimming now)._dimStartTime < dimDurationMs s._dimDurationMinutes ∧
      ∃ v, map (elapsedMs now (s.startDimming now)._dimStartTime) 0
              (dimDurationMs s._dimDurationMinutes) 255 0 = some v ∧
        update s log now h m =
          some ({ s.startDimming now with _brightness := toUint8 v },
                log ++ [(s._pwmPin, (toUint8 v).val)])) ∨
    (s._isInOnWindow h m = false ∧ s._lightOn = true ∧
      dimDurationMs s._dimDurationMinutes ≤ elapsedMs now (s.startDimming now)._dimStartTime ∧
      update s log now h m =
        some ({ s with _brightness := 0, _dimming := false, _lightOn := false,
                       _dimStartTime := (s.startDimming now)._dimStartTime },
              log ++ [(s._pwmPin, 0)])) ∨
    (s._isInOnWindow h m = false ∧ s._lightOn = false ∧
      update s log now h m = some (s, log)) := by
  cases hwin : s._isInOnWindow h m
  · cases hon : s._lightOn
    · exact Or.inr (Or.inr (Or.inr (Or.inr ⟨rfl, rfl, update_off_outside s log now h m hwin hon⟩)))
    · by_cases hel : elapsedMs now (s.startDimming now)._dimStartTime
          < dimDurationMs s._dimDurationMinutes
      · obtain ⟨v, hv⟩ := map_isSome (elapsedMs now (s.startDimming now)._dimStartTime)
          (dimDurationMs s._dimDurationMinutes) (by omega) (dimDurationMs_lt _)
        refine Or.inr (Or.inr (Or.inl ⟨rfl, rfl, hel, v, hv, ?_⟩))
        rw [update_outside_on s log now h m hwin hon, if_pos hel, hv]
        rfl
      · refine Or.inr (Or.inr (Or.inr (Or.inl ⟨rfl, rfl, Nat.le_of_not_lt hel, ?_⟩)))
        rw [update_outside_on s log now h m hwin hon, if_neg hel]
  · by_cases hnd : s._dimming = false ∨ s._lightOn = false
    · exact Or.inl ⟨rfl, hnd, update_inWindow s log now h m hwin hnd⟩
    · have hon : s._lightOn = true := by
        cases hl : s._lightOn
        · exact absurd (Or.inr hl) hnd
        · rfl
      have hd : s._dimming = true := by
        cases hl : s._dimming
        · exact absurd (Or.inl hl) hnd
        · rfl
      exact Or.inr (Or.inl ⟨rfl, hon, hd, update_inWindow_dimming s log now h m hwin hon hd⟩)

/-- The member `update` returns for every state, clock value, hour and
minute. -/
theorem update_total (s : LightScheduler) (log : PwmLog) (now : Fin 4294967296)
    (h m : Fin 256) : ∃ r, update s log now h m = some r := by
  rcases update_cases s log now h m with
    ⟨_, _, e⟩ | ⟨_, _, _, e⟩ | ⟨_, _, _, _, _, e⟩ | ⟨_, _, _, e⟩ | ⟨_, _, e⟩ <;>
  exact ⟨_, e⟩

end LightScheduler

/-! ## Sequences of calls and what they keep -/

namespace Board
open LightScheduler Arduino

theorem step_update_eq (b b1 : Board) (now : Fin 4294967296) (h m : Fin 256)
    (hs : b.step (Op.update now h m) = some b1) :
    ∃ s1 log1, update b.sched b.pwm now h m = some (s1, log1) ∧
      b1 = { b with sched := s1, pwm := log1 } := by
  obtain ⟨r, hr⟩ := update_total b.sched b.pwm now h m
  have hs2 : (update b.sched b.pwm now h m).map
      (fun r => ({ b with sched := r.1, pwm := r.2 } : Board)) = some b1 := hs
  rw [hr, Option.map_some'] at hs2
  exact ⟨r.1, r.2, hr, (Option.some.inj hs2).symm⟩

theorem boot_inv (log0 : PwmLog) (e0 : Store) (pin : Int) (d : Fin 65536) :
    (boot log0 e0 pin d).Inv := by
  refine ⟨fun hd => ?_, fun _ => rfl, ?_⟩
  · exact Bool.noConfusion (hd : false = true)
  · show (log0 ++ [(pin, 0)]).getLast? = some (pin, 0)
    simp

/-- Every call keeps `Board.Inv`. -/
theorem step_inv (b b1 : Board) (op : Op) (hb : b.Inv) (hs : b.step op = some b1) :
    b1.Inv := by
  cases op with
  | setOnTime hour minute => cases hs; exact hb
  | setOffTime hour minute => cases hs; exact hb
  | setDimDuration minutes => cases hs; exact hb
  | saveToEEPROM address => cases hs; exact hb
  | loadFromEEPROM address => cases hs; exact hb
  | update now h m =>
    obtain ⟨s1, log1, hu, rfl⟩ := step_update_eq b b1 now h m hs
    obtain ⟨h1, h2, h3⟩ := hb
    rcases update_cases b.sched b.pwm now h m with
      ⟨_, _, e⟩ | ⟨_, _, _, e⟩ | ⟨_, hon, _, v, _, e⟩ | ⟨_, _, _, e⟩ | ⟨_, _, e⟩
    all_goals
      rw [e] at hu
      obtain ⟨rfl, rfl⟩ := Prod.mk.inj (Option.some.inj hu)
    · refine ⟨fun hd => rfl, fun hl => Bool.noConfusion (hl : true = false), ?_⟩
      show (b.pwm ++ [(b.sched._pwmPin, 255)]).getLast? = some (b.sched._pwmPin, 255)
      simp
    · exact ⟨h1, h2, h3⟩
    · have hon2 : (b.sched.startDimming now)._lightOn = true := by
        unfold startDimming; split <;> exact hon
      have hpin : (b.sched.startDimming now)._pwmPin = b.sched._pwmPin := by
        unfold startDimming; split <;> rfl
      refine ⟨fun _ => hon2, fun hl => ?_, ?_⟩
      · rw [show ({ b.sched.startDimming now with _brightness := toUint8 v } :
            LightScheduler)._lightOn = (b.sched.startDimming now)._lightOn from rfl,
          hon2] at hl
        exact absurd hl (by decide)
      · show (b.pwm ++ [(b.sched._pwmPin, (toUint8 v).val)]).getLast?
            = some ((b.sched.startDimming now)._pwmPin, (toUint8 v).val)
        rw [hpin]
        simp
    · refine ⟨fun hd => Bool.noConfusion (hd : false = true), fun _ => rfl, ?_⟩
      show (b.pwm ++ [(b.sched._pwmPin, 0)]).getLast? = some (b.sched._pwmPin, 0)
      simp
    · exact ⟨h1, h2, h3⟩

/-- Every sequence of calls keeps `Board.Inv`. -/
theorem run_inv (ops : List Op) : ∀ (b b1 : Board), b.Inv → b.run ops = some b1 → b1.Inv := by
  induction ops with
  | nil =>
    intro b b1 hb hr
    cases hr
    exact hb
  | cons op rest ih =>
    intro b b1 hb hr
    have hr2 : (b.step op).bind (fun b2 => run b2 rest) = some b1 := hr
    cases hs : b.step op with
    | none => rw [hs] at hr2; cases hr2
    | some b2 =>
      rw [hs, Option.some_bind] at hr2
      exact ih b2 b1 (step_inv b b2 op hb hs) hr2

/-- Every call returns. -/
theorem step_total (b : Board) (op : Op) : ∃ b1, b.step op = some b1 := by
  cases op with
  | setOnTime hour minute => exact ⟨_, rfl⟩
  | setOffTime hour minute => exact ⟨_, rfl⟩
  | setDimDuration minutes => exact ⟨_, rfl⟩
  | saveToEEPROM address => exact ⟨_, rfl⟩
  | loadFromEEPROM address => exact ⟨_, rfl⟩
  | update now h m =>
    obtain ⟨r, hr⟩ := update_total b.sched b.pwm now h m
    refine ⟨{ b with sched := r.1, pwm := r.2 }, ?_⟩
    show (update b.sched b.pwm now h m).map
      (fun r => ({ b with sched := r.1, pwm := r.2 } : Board)) = _
    rw [hr, Option.map_some']

/-- Every sequence of calls returns. -/
theorem run_total (ops : List Op) : ∀ b : Board, ∃ b1, b.run ops = some b1 := by
  induction ops with
  | nil => exact fun b => ⟨b, rfl⟩
  | cons op rest ih =>
    intro b
    obtain ⟨b2, hs⟩ := step_total b op
    obtain ⟨b1, hr⟩ := ih b2
    refine ⟨b1, ?_⟩
    show (b.step op).bind (fun b2 => run b2 rest) = some b1
    rw [hs, Option.some_bind]
    exact hr

end Board

/-! ## Invariants of the reachable states -/

namespace Board
open LightScheduler Arduino

/-- C13: every sequence of `setOnTime`, `setOffTime`, `setDimDuration`,
`saveToEEPROM`, `loadFromEEPROM` and `update` calls on a freshly constructed
scheduler returns, and in the state it reaches `isDimming()` true implies
`isOn()` true. -/
theorem run_dimming_implies_on (log0 : PwmLog) (e0 : Store) (pin : Int) (d : Fin 65536)
    (ops : List Op) :
    ∃ b : Board, (boot log0 e0 pin d).run ops = some b ∧
      (b.sched.isDimming = true → b.sched.isOn = true) := by
  obtain ⟨b, hr⟩ := run_total ops (boot log0 e0 pin d)
  exact ⟨b, hr, (run_inv ops _ b (boot_inv log0 e0 pin d) hr).1⟩

theorem run_dimming_implies_on_witness :
    (boot [] (fun _ => 0) 9 60).run exampleOps = some exampleBoardFading ∧
    exampleBoardFading.sched.isDimming = true ∧ exampleBoardFading.sched.isOn = true := by
  have hrun : (boot [] (fun _ => 0) 9 60).run exampleOps = some exampleBoardFading := rfl
  obtain ⟨b, hb, himp⟩ := run_dimming_implies_on [] (fun _ => 0) 9 60 exampleOps
  rw [hrun] at hb
  cases hb
  exact ⟨hrun, rfl, himp rfl⟩

/-- C14: every sequence of setter, load, save and `update` calls on a freshly
constructed scheduler returns, and in the state it reaches `isOn()` false and
`isDimming()` false imply `getBrightness()` 0. -/
theorem run_off_implies_dark (log0 : PwmLog) (e0 : Store) (pin : Int) (d : Fin 65536)
    (ops : List Op) :
    ∃ b : Board, (boot log0 e0 pin d).run ops = some b ∧
      (b.sched.isOn = false → b.sched.isDimming = false → b.sched.getBrightness = 0) := by
  obtain ⟨b, hr⟩ := run_total ops (boot log0 e0 pin d)
  exact ⟨b, hr, fun hoff _ => (run_inv ops _ b (boot_inv log0 e0 pin d) hr).2.1 hoff⟩

theorem run_off_implies_dark_witness :
    (boot [] (fun _ => 0) 9 60).run [Op.setDimDuration 30] = some exampleBoardUnset ∧
    exampleBoardUnset.sched.isOn = false ∧ exampleBoardUnset.sched.isDimming = false ∧
    exampleBoardUnset.sched.getBrightness = 0 := by
  have hrun : (boot [] (fun _ => 0) 9 60).run [Op.setDimDuration 30]
      = some exampleBoardUnset := rfl
  obtain ⟨b, hb, himp⟩ := run_off_implies_dark [] (fun _ => 0) 9 60 [Op.setDimDuration 30]
  rw [hrun] at hb
  cases hb
  exact ⟨hrun, rfl, rfl, himp rfl rfl⟩

end Board

namespace Board
open LightScheduler Arduino

/-- C19: after construction and after every sequence of setter, load, save and
`update` calls, the last level written to the PWM pin is `getBrightness()`;
every `update` either appends the new brightness to the output or leaves both
the output and the brightness as they were, and with the light off outside the
on-window it writes nothing and changes nothing. -/
theorem run_last_write_is_brightness (log0 : PwmLog) (e0 : Store) (pin : Int)
    (d : Fin 65536) (ops : List Op) :
    (boot log0 e0 pin d).pwm.getLast?
      = some (pin, (boot log0 e0 pin d).sched.getBrightness.val) ∧
    (∃ b : Board, (boot log0 e0 pin d).run ops = some b ∧
      b.pwm.getLast? = some (pin, b.sched.getBrightness.val)) ∧
    (∀ (s : LightScheduler) (log : PwmLog) (now : Fin 4294967296) (h m : Fin 256),
      ∃ s1 log1, update s log now h m = some (s1, log1) ∧
        ((log1 = log ∧ s1.getBrightness = s.getBrightness) ∨
          log1 = log ++ [(s._pwmPin, s1.getBrightness.val)]) ∧
        (s.isOn = false → s._isInOnWindow h m = false → log1 = log ∧ s1 = s)) := by
  have pin_run : ∀ (l : List Op) (b b1 : Board), b.run l = some b1 →
      b1.sched._pwmPin = b.sched._pwmPin := by
    intro l
    induction l with
    | nil => intro b b1 hr; cases hr; rfl
    | cons op rest ih =>
      intro b b1 hr
      have hr2 : (b.step op).bind (fun b2 => run b2 rest) = some b1 := hr
      obtain ⟨b2, hs⟩ := step_total b op
      rw [hs, Option.some_bind] at hr2
      rw [ih b2 b1 hr2]
      cases op with
      | setOnTime hour minute => cases hs; rfl
      | setOffTime hour minute => cases hs; rfl
      | setDimDuration minutes => cases hs; rfl
      | saveToEEPROM address => cases hs; rfl
      | loadFromEEPROM address => cases hs; rfl
      | update now h m =>
        obtain ⟨s1, log1, hu, rfl⟩ := step_update_eq b b2 now h m hs
        rcases update_cases b.sched b.pwm now h m with
          ⟨_, _, e⟩ | ⟨_, _, _, e⟩ | ⟨_, _, _, v, _, e⟩ | ⟨_, _, _, e⟩ | ⟨_, _, e⟩
        all_goals
          rw [e] at hu
          obtain ⟨rfl, rfl⟩ := Prod.mk.inj (Option.some.inj hu)
        · rfl
        · rfl
        · show (b.sched.startDimming now)._pwmPin = b.sched._pwmPin
          unfold startDimming; split <;> rfl
        · rfl
        · rfl
  refine ⟨(boot_inv log0 e0 pin d).2.2, ?_, ?_⟩
  · obtain ⟨b, hr⟩ := run_total ops (boot log0 e0 pin d)
    refine ⟨b, hr, ?_⟩
    have hinv := (run_inv ops _ b (boot_inv log0 e0 pin d) hr).2.2
    have hpin : b.sched._pwmPin = pin := pin_run ops _ b hr
    rw [hpin] at hinv
    exact hinv
  · intro s log now h m
    rcases update_cases s log now h m with
      ⟨hw, _, e⟩ | ⟨hw, hon, _, e⟩ | ⟨_, hon, _, v, _, e⟩ | ⟨_, hon, _, e⟩ | ⟨_, _, e⟩
    · refine ⟨_, _, e, Or.inr rfl, fun _ hout => ?_⟩
      rw [hw] at hout
      exact Bool.noConfusion hout
    · refine ⟨_, _, e, Or.inl ⟨rfl, rfl⟩, fun _ _ => ⟨rfl, rfl⟩⟩
    · refine ⟨_, _, e, Or.inr rfl, fun hoff _ => ?_⟩
      rw [show s.isOn = s._lightOn from rfl, hon] at hoff
      exact Bool.noConfusion hoff
    · refine ⟨_, _, e, Or.inr rfl, fun hoff _ => ?_⟩
      rw [show s.isOn = s._lightOn from rfl, hon] at hoff
      exact Bool.noConfusion hoff
    · exact ⟨_, _, e, Or.inl ⟨rfl, rfl⟩, fun _ _ => ⟨rfl, rfl⟩⟩

/-- C15: `setOnTime(h, m)` stores `{h, m}` for all byte values and leaves the
off-time, the dim duration, the light-on flag, the dimming flag, the dim start
time, the brightness, the output and the EEPROM as they were; `setOffTime`
does the same for the off-time. -/
theorem setOnTime_setOffTime_frame (b : Board) (h m : Fin 256) :
    (∃ b1 : Board, b.step (Op.setOnTime h m) = some b1 ∧
      b1.sched.getOnTime = { hour := h, minute := m } ∧
      b1.sched.getOffTime = b.sched.getOffTime ∧
      b1.sched._dimDurationMinutes = b.sched._dimDurationMinutes ∧
      b1.sched._pwmPin = b.sched._pwmPin ∧
      b1.sched.isOn = b.sched.isOn ∧ b1.sched.isDimming = b.sched.isDimming ∧
      b1.sched._dimStartTime = b.sched._dimStartTime ∧
      b1.sched.getBrightness = b.sched.getBrightness ∧
      b1.pwm = b.pwm ∧ b1.eeprom = b.eeprom) ∧
    (∃ b1 : Board, b.step (Op.setOffTime h m) = some b1 ∧
      b1.sched.getOffTime = { hour := h, minute := m } ∧
      b1.sched.getOnTime = b.sched.getOnTime ∧
      b1.sched._dimDurationMinutes = b.sched._dimDurationMinutes ∧
      b1.sched._pwmPin = b.sched._pwmPin ∧
      b1.sched.isOn = b.sched.isOn ∧ b1.sched.isDimming = b.sched.isDimming ∧
      b1.sched._dimStartTime = b.sched._dimStartTime ∧
      b1.sched.getBrightness = b.sched.getBrightness ∧
      b1.pwm = b.pwm ∧ b1.eeprom = b.eeprom) :=
  ⟨⟨_, rfl, rfl, rfl, rfl, rfl, rfl, rfl, rfl, rfl, rfl, rfl⟩,
   ⟨_, rfl, rfl, rfl, rfl, rfl, rfl, rfl, rfl, rfl, rfl, rfl⟩⟩

end Board

namespace LightScheduler
open Arduino

/-- C17: for every start time `s` and every true elapsed time `d` below `2^32`,
the value `elapsed` that `update` computes at the clock value
`(s + d) mod 2^32` is `d`, also when the counter has rolled over, as at
`s = 4294967000`, `d = 1000`, where the clock reads 704. -/
theorem elapsedMs_wraparound (start d : Fin 4294967296) :
    elapsedMs ⟨(start.val + d.val) % 4294967296, Nat.mod_lt _ (by omega)⟩ start = d.val ∧
    elapsedMs 704 4294967000 = 1000 := by
  constructor
  · have h1 := start.isLt
    have h2 := d.isLt
    show ((start.val + d.val) % 4294967296 + 4294967296 - start.val) % 4294967296 = d.val
    omega
  · decide

end LightScheduler

/-! ## The start of the fade, the dim duration and totality -/

namespace Arduino

/-- At elapsed time 0 the fade value is 255, for every nonzero 32-bit total. -/
theorem map_zero_elapsed (total : Nat) (hpos : 0 < total) (hlt : total < 4294967296) :
    map ((0 : Nat) : Int) 0 total 255 0 = some 255 := by
  have h0 : toLong 0 = 0 := by unfold toLong; omega
  have hc : ((0 : Nat) : Int) = 0 := rfl
  have h255 : toLong 255 = 255 := by unfold toLong; omega
  have h255b : toLong (0 + 255) = 255 := by unfold toLong; omega
  have hden : toLong (toLong (total : Int)) ≠ 0 := by
    unfold toLong
    omega
  show (if toLong (toLong (total : Int) - toLong 0) = 0 then none
        else some (toLong (toLong ((toLong (toLong (toLong ((0 : Nat) : Int) - toLong 0)
              * toLong (toLong 0 - toLong 255))).tdiv
                (toLong (toLong (total : Int) - toLong 0))) + toLong 255))) = some 255
  rw [hc, h0, sub_zero, sub_zero, h0, zero_mul, h0, Int.zero_tdiv, h0, h255, h255b,
    if_neg hden]

end Arduino

namespace LightScheduler
open Arduino

/-- C20: `update` returns for every state and every dim duration; whenever the
guard `elapsed < dimDurationMs` holds the divisor of the interpolation is not
zero; the 32-bit product `dimDurationMinutes * 60000` is the exact product, at
most 3932100000; and with a dim duration of 0 an `update` outside the
on-window with the light on ends with brightness 0, the light off and the
dimming flag clear, writing 0. -/
theorem update_total_zero_duration :
    (∀ (s : LightScheduler) (log : PwmLog) (now : Fin 4294967296) (h m : Fin 256),
      ∃ r, update s log now h m = some r) ∧
    (∀ (elapsed : Nat) (d : Fin 65536), elapsed < dimDurationMs d →
      0 < dimDurationMs d ∧
      toLong (toLong (dimDurationMs d : Int) - toLong 0) ≠ 0 ∧
      ∃ v, map elapsed 0 (dimDurationMs d) 255 0 = some v) ∧
    (∀ d : Fin 65536, dimDurationMs d = d.val * 60000 ∧ d.val * 60000 ≤ 3932100000 ∧
      3932100000 < 4294967296) ∧
    (∀ (s : LightScheduler) (log : PwmLog) (now : Fin 4294967296) (h m : Fin 256),
      s._dimDurationMinutes = 0 → s.isOn = true → s._isInOnWindow h m = false →
      ∃ s1, update s log now h m = some (s1, log ++ [(s._pwmPin, 0)]) ∧
        s1.getBrightness = 0 ∧ s1.isOn = false ∧ s1.isDimming = false) := by
  refine ⟨update_total, ?_, ?_, ?_⟩
  · intro elapsed d hel
    have hlt := dimDurationMs_lt d
    refine ⟨by omega, ?_, map_isSome _ _ (by omega) hlt⟩
    generalize dimDurationMs d = t at *
    unfold toLong
    omega
  · intro d
    have := d.isLt
    exact ⟨dimDurationMs_eq d, by omega, by omega⟩
  · intro s log now h m hd hon hwin
    refine update_fade_complete s log now h m hwin hon ?_
    rw [hd]
    exact Nat.zero_le _

end LightScheduler

namespace LightScheduler
open Arduino

theorem startDimming_dimming (s : LightScheduler) (now : Fin 4294967296) :
    (s.startDimming now)._dimming = true := by
  cases hd : s._dimming
  · rw [startDimming_of_not_dimming s now hd]
  · rw [startDimming_of_dimming s now hd]
    exact hd

/-- C16: with the light on and the current time outside the on-window,
`update` acts as on the state whose dimming flag is set; from a state that is
not dimming that state records `dimStartTime = now`, the start time after the
call is `now`, and for a dim duration above 0 the call leaves the light on and
dimming with brightness 255, writing 255 (for a dim duration of 0 the flag is
cleared again in the same call); from a state that is already dimming the
start time is left as it was. -/
theorem update_starts_dimming (s : LightScheduler) (log : PwmLog) (now : Fin 4294967296)
    (h m : Fin 256) (hwin : s._isInOnWindow h m = false) (hon : s.isOn = true) :
    update s log now h m = update (s.startDimming now) log now h m ∧
    (s.startDimming now).isDimming = true ∧
    (s.isDimming = false →
      (s.startDimming now)._dimStartTime = now ∧
      ∃ s1 log1, update s log now h m = some (s1, log1) ∧ s1._dimStartTime = now ∧
        (0 < s._dimDurationMinutes.val →
          s1.isOn = true ∧ s1.isDimming = true ∧ s1.getBrightness = 255 ∧
          log1 = log ++ [(s._pwmPin, 255)]) ∧
        (s._dimDurationMinutes.val = 0 → s1.isOn = false ∧ s1.isDimming = false)) ∧
    (s.isDimming = true →
      ∃ s1 log1, update s log now h m = some (s1, log1) ∧
        s1._dimStartTime = s._dimStartTime) := by
  have hon1 : s._lightOn = true := hon
  refine ⟨?_, startDimming_dimming s now, ?_, ?_⟩
  · cases hd : s._dimming
    · have hwin2 : (s.startDimming now)._isInOnWindow h m = false := by
        rw [startDimming_of_not_dimming s now hd]; exact hwin
      have hon2 : (s.startDimming now)._lightOn = true := by
        rw [startDimming_of_not_dimming s now hd]; exact hon1
      rw [update_outside_on s log now h m hwin hon1,
        update_outside_on (s.startDimming now) log now h m hwin2 hon2,
        startDimming_of_dimming (s.startDimming now) now (startDimming_dimming s now),
        startDimming_of_not_dimming s now hd]
    · rw [startDimming_of_dimming s now hd]
  · intro hd
    have hd1 : s._dimming = false := hd
    have hst : (s.startDimming now)._dimStartTime = now := by
      rw [startDimming_of_not_dimming s now hd1]
    refine ⟨hst, ?_⟩
    rcases update_cases s log now h m with
      ⟨hw, _, _⟩ | ⟨hw, _, _, _⟩ | ⟨_, _, hel, v, hv, e⟩ | ⟨_, _, hel, e⟩ | ⟨_, hoff, _⟩
    · rw [hw] at hwin; exact Bool.noConfusion hwin
    · rw [hw] at hwin; exact Bool.noConfusion hwin
    · refine ⟨_, _, e, hst, fun hpos => ?_, fun hzero => ?_⟩
      · rw [hst, elapsedMs_self] at hv
        have hv2 := map_zero_elapsed (dimDurationMs s._dimDurationMinutes)
          (by rw [dimDurationMs_eq]; omega) (dimDurationMs_lt _)
        rw [hv2] at hv
        have hv3 : v = 255 := (Option.some.inj hv).symm
        subst hv3
        rw [startDimming_of_not_dimming s now hd1]
        exact ⟨hon1, rfl, rfl, rfl⟩
      · rw [dimDurationMs_eq, hzero] at hel
        omega
    · refine ⟨_, _, e, hst, fun hpos => ?_, fun _ => ⟨rfl, rfl⟩⟩
      rw [hst, elapsedMs_self, dimDurationMs_eq] at hel
      omega
    · rw [hon1] at hoff; exact Bool.noConfusion hoff
  · intro hd
    have hd1 : s._dimming = true := hd
    rcases update_cases s log now h m with
      ⟨hw, _, _⟩ | ⟨hw, _, _, _⟩ | ⟨_, _, _, v, _, e⟩ | ⟨_, _, _, e⟩ | ⟨_, hoff, _⟩
    · rw [hw] at hwin; exact Bool.noConfusion hwin
    · rw [hw] at hwin; exact Bool.noConfusion hwin
    · refine ⟨_, _, e, ?_⟩
      rw [startDimming_of_dimming s now hd1]
    · refine ⟨_, _, e, ?_⟩
      rw [startDimming_of_dimming s now hd1]
    · rw [hon1] at hoff; exact Bool.noConfusion hoff

theorem update_starts_dimming_witness :
    exampleNightOn._isInOnWindow 6 0 = false ∧ exampleNightOn.isOn = true ∧
    exampleNightOn.isDimming = false ∧
    update exampleNightOn [] 5000 6 0
      = update (exampleNightOn.startDimming 5000) [] 5000 6 0 ∧
    (exampleNightOn.startDimming 5000).isDimming = true ∧
    (exampleNightOn.isDimming = false →
      (exampleNightOn.startDimming 5000)._dimStartTime = 5000 ∧
      ∃ s1 log1, update exampleNightOn [] 5000 6 0 = some (s1, log1) ∧
        s1._dimStartTime = 5000 ∧
        (0 < exampleNightOn._dimDurationMinutes.val →
          s1.isOn = true ∧ s1.isDimming = true ∧ s1.getBrightness = 255 ∧
          log1 = [] ++ [(exampleNightOn._pwmPin, 255)]) ∧
        (exampleNightOn._dimDurationMinutes.val = 0 →
          s1.isOn = false ∧ s1.isDimming = false)) ∧
    (exampleNightOn.isDimming = true →
      ∃ s1 log1, update exampleNightOn [] 5000 6 0 = some (s1, log1) ∧
        s1._dimStartTime = exampleNightOn._dimStartTime) :=
  ⟨by decide, rfl, rfl, update_starts_dimming exampleNightOn [] 5000 6 0 (by decide) rfl⟩

end LightScheduler

namespace LightScheduler
open Arduino

/-- C11 as stated fails: with a 60-minute fade in progress since clock value
1000, `update(22,30)` at clock value 1801000 gives brightness 128 with the
light on and dimming, but after `setDimDuration(30)` the same call gives
brightness 0 with the light off. -/
theorem setDimDuration_changes_running_fade :
    ¬ (∀ (s : LightScheduler) (d : Fin 65536) (log : PwmLog) (now : Fin 4294967296)
        (h m : Fin 256), s.isDimming = true → s._isInOnWindow h m = false →
        observe (update (s.setDimDuration d) log now h m)
          = observe (update s log now h m)) := by
  intro hall
  have hc := hall (fading60 255) 30 [] 1801000 22 30 rfl (by decide)
  have h1 : observe (update ((fading60 255).setDimDuration 30) [] 1801000 22 30)
      = some (0, false, false) := by decide
  have h2 : observe (update (fading60 255) [] 1801000 22 30)
      = some (128, true, true) := by decide
  rw [h1, h2] at hc
  exact absurd hc (by decide)

/-- C11, amended: `setDimDuration(d)` changes the stored duration only, and
the next `update` outside the on-window of a state that is on and dimming uses
`d` with the start time as it was: for `elapsed ≥ d * 60000` it ends the fade
(brightness 0, light off, dimming flag clear), for `elapsed < d * 60000` it
leaves the light on and dimming, with brightness
`255 - floor(255 * elapsed / (d * 60000))` inside the range of `long`; when
`d` is the duration already stored the call changes nothing. -/
theorem setDimDuration_then_update (s : LightScheduler) (d : Fin 65536) (log : PwmLog)
    (now : Fin 4294967296) (h m : Fin 256)
    (hwin : s._isInOnWindow h m = false) (hon : s.isOn = true)
    (hdim : s.isDimming = true) :
    s.setDimDuration d = { s with _dimDurationMinutes := d } ∧
    (d = s._dimDurationMinutes →
      update (s.setDimDuration d) log now h m = update s log now h m) ∧
    ∃ s1 log1, update (s.setDimDuration d) log now h m = some (s1, log1) ∧
      s1._dimStartTime = s._dimStartTime ∧
      (d.val * 60000 ≤ elapsedMs now s._dimStartTime →
        s1.getBrightness = 0 ∧ s1.isOn = false ∧ s1.isDimming = false) ∧
      (elapsedMs now s._dimStartTime < d.val * 60000 →
        s1.isOn = true ∧ s1.isDimming = true ∧
        (d.val * 60000 < 2147483648 → 255 * elapsedMs now s._dimStartTime ≤ 2147483648 →
          s1.getBrightness.val
            = fadeLevel (elapsedMs now s._dimStartTime) (d.val * 60000))) := by
  have hon1 : (s.setDimDuration d)._lightOn = true := hon
  have hd1 : (s.setDimDuration d)._dimming = true := hdim
  have hwin1 : (s.setDimDuration d)._isInOnWindow h m = false := hwin
  have hsd : (s.setDimDuration d).startDimming now = s.setDimDuration d :=
    startDimming_of_dimming _ now hd1
  have hst : (s.setDimDuration d)._dimStartTime = s._dimStartTime := rfl
  have hdur : (s.setDimDuration d)._dimDurationMinutes = d := rfl
  refine ⟨rfl, ?_, ?_⟩
  · intro hd
    have hs : s.setDimDuration d = s := by
      rw [hd]
      rfl
    rw [hs]
  · rcases update_cases (s.setDimDuration d) log now h m with
      ⟨hw, _, _⟩ | ⟨hw, _, _, _⟩ | ⟨_, _, hel, v, hv, e⟩ | ⟨_, _, hel, e⟩ | ⟨_, hoff, _⟩
    · rw [hw] at hwin1; exact Bool.noConfusion hwin1
    · rw [hw] at hwin1; exact Bool.noConfusion hwin1
    · rw [hsd, hst, hdur, dimDurationMs_eq] at hel
      refine ⟨_, _, e, ?_, fun hge => absurd hel (Nat.not_lt.mpr hge), fun _ => ?_⟩
      · rw [hsd]
        rfl
      · rw [hsd]
        refine ⟨hon1, hd1, fun htot hno => ?_⟩
        rw [hsd, hst, hdur, dimDurationMs_eq, map_fade_eq _ _ hel htot hno] at hv
        have hv2 : v = ((fadeLevel (elapsedMs now s._dimStartTime) (d.val * 60000) : Nat) : Int) :=
          (Option.some.inj hv).symm
        subst hv2
        exact toUint8_val_of_lt _ (by have := (fadeLevel_pos _ _ hel).2; omega)
    · rw [hsd, hst, hdur, dimDurationMs_eq] at hel
      refine ⟨_, _, e, ?_, fun _ => ⟨rfl, rfl, rfl⟩, fun hlt => absurd hlt (Nat.not_lt.mpr hel)⟩
      rw [hsd]
      rfl
    · rw [hon1] at hoff; exact Bool.noConfusion hoff

theorem setDimDuration_then_update_witness :
    (fading60 255)._isInOnWindow 22 30 = false ∧ (fading60 255).isOn = true ∧
    (fading60 255).isDimming = true ∧
    (fading60 255).setDimDuration 30 = { fading60 255 with _dimDurationMinutes := 30 } ∧
    ((30 : Fin 65536) = (fading60 255)._dimDurationMinutes →
      update ((fading60 255).setDimDuration 30) [] 1801000 22 30
        = update (fading60 255) [] 1801000 22 30) ∧
    ∃ s1 log1, update ((fading60 255).setDimDuration 30) [] 1801000 22 30 = some (s1, log1) ∧
      s1._dimStartTime = (fading60 255)._dimStartTime ∧
      ((30 : Fin 65536).val * 60000 ≤ elapsedMs 1801000 (fading60 255)._dimStartTime →
        s1.getBrightness = 0 ∧ s1.isOn = false ∧ s1.isDimming = false) ∧
      (elapsedMs 1801000 (fading60 255)._dimStartTime < (30 : Fin 65536).val * 60000 →
        s1.isOn = true ∧ s1.isDimming = true ∧
        ((30 : Fin 65536).val * 60000 < 2147483648 →
          255 * elapsedMs 1801000 (fading60 255)._dimStartTime ≤ 2147483648 →
          s1.getBrightness.val
            = fadeLevel (elapsedMs 1801000 (fading60 255)._dimStartTime)
                ((30 : Fin 65536).val * 60000))) :=
  ⟨by decide, rfl, rfl,
   setDimDuration_then_update (fading60 255) 30 [] 1801000 22 30 (by decide) rfl rfl⟩

/-- C12: on 22:30, off 22:00, 60-minute fade, set on a freshly constructed
scheduler. `update(21,59)` at clock value 0, `update(22,0)` at 60000 and
`update(22,15)` at 960000 leave the light dimming at brightness 192; the next
call `update(22,30)` at 1860000 is inside the on-window and leaves
`isDimming()` true and the brightness at 192, writing nothing. -/
theorem update_inWindow_keeps_dimming :
    runUpdates (exampleLongWindow, []) [(0, 21, 59), (60000, 22, 0), (960000, 22, 15)]
      = some (fadingLongWindow 192, [(9, 255), (9, 255), (9, 192)]) ∧
    (fadingLongWindow 192)._isInOnWindow 22 30 = true ∧
    runUpdates (exampleLongWindow, [])
        [(0, 21, 59), (60000, 22, 0), (960000, 22, 15), (1860000, 22, 30)]
      = some (fadingLongWindow 192, [(9, 255), (9, 255), (9, 192)]) ∧
    (fadingLongWindow 192).isDimming = true ∧
    (fadingLongWindow 192).getBrightness = 192 := by
  refine ⟨by decide, by decide, by decide, rfl, rfl⟩

end LightScheduler

namespace Board
open LightScheduler Arduino

theorem step_lit (b b1 : Board) (op : Op)
    (hb : b.sched._lightOn = true → 1 ≤ b.sched._brightness.val)
    (hin : op.inRange b = true) (hs : b.step op = some b1) :
    b1.sched._lightOn = true → 1 ≤ b1.sched._brightness.val := by
  cases op with
  | setOnTime hour minute => cases hs; exact hb
  | setOffTime hour minute => cases hs; exact hb
  | setDimDuration minutes => cases hs; exact hb
  | saveToEEPROM address => cases hs; exact hb
  | loadFromEEPROM address => cases hs; exact hb
  | update now h m =>
    have hin2 : b.sched.mapInRange now h m := of_decide_eq_true hin
    obtain ⟨s1, log1, hu, rfl⟩ := step_update_eq b b1 now h m hs
    rcases update_cases b.sched b.pwm now h m with
      ⟨_, _, e⟩ | ⟨_, _, _, e⟩ | ⟨hw, hon, hel, v, hv, e⟩ | ⟨_, _, _, e⟩ | ⟨_, _, e⟩
    all_goals
      rw [e] at hu
      obtain ⟨rfl, rfl⟩ := Prod.mk.inj (Option.some.inj hu)
    · intro _
      show 1 ≤ (255 : Fin 256).val
      decide
    · exact hb
    · intro _
      obtain ⟨htot, hno⟩ := hin2 hw hon hel
      rw [map_fade_eq _ _ hel htot hno] at hv
      have hv2 := (Option.some.inj hv).symm
      subst hv2
      have hl := fadeLevel_pos _ _ hel
      show 1 ≤ (toUint8 _).val
      rw [toUint8_val_of_lt _ (by omega)]
      exact hl.1
    · intro hl
      exact Bool.noConfusion (hl : false = true)
    · exact hb

theorem run_lit (ops : List Op) : ∀ (b b1 : Board),
    (b.sched._lightOn = true → 1 ≤ b.sched._brightness.val) →
    b.runInRange ops = true → b.run ops = some b1 →
    (b1.sched._lightOn = true → 1 ≤ b1.sched._brightness.val) := by
  induction ops with
  | nil =>
    intro b b1 hb _ hr
    cases hr
    exact hb
  | cons op rest ih =>
    intro b b1 hb hin hr
    have hr2 : (b.step op).bind (fun b2 => run b2 rest) = some b1 := hr
    have hin2 : (op.inRange b && (b.step op).all fun b2 => runInRange b2 rest) = true := hin
    obtain ⟨b2, hs⟩ := step_total b op
    rw [hs, Option.some_bind] at hr2
    rw [hs, Bool.and_eq_true] at hin2
    exact ih b2 b1 (step_lit b b2 op hb hin2.1 hs) hin2.2 hr2

/-- C18: leaving aside the calls in which the arithmetic of `map` leaves the
range of `long`, every sequence of setter, load, save and `update` calls on a
freshly constructed scheduler returns, and in the state it reaches `isOn()`
true implies `getBrightness() ≥ 1`, so that `getBrightness()` is 0 exactly
when `isOn()` is false; and inside that range the interpolated value for
`elapsed < total` lies in 1..255 and is left as it is by the cast to
`uint8_t`. -/
theorem run_on_implies_lit (log0 : PwmLog) (e0 : Store) (pin : Int) (d : Fin 65536)
    (ops : List Op) (hin : (boot log0 e0 pin d).runInRange ops = true) :
    (∃ b : Board, (boot log0 e0 pin d).run ops = some b ∧
      (b.sched.isOn = true → 1 ≤ b.sched.getBrightness.val) ∧
      (b.sched.getBrightness.val = 0 ↔ b.sched.isOn = false)) ∧
    (∀ elapsed total : Nat, elapsed < total → total < 2147483648 →
      255 * elapsed ≤ 2147483648 →
      ∃ v : Int, map elapsed 0 total 255 0 = some v ∧ 1 ≤ v ∧ v ≤ 255 ∧
        ((toUint8 v).val : Int) = v) := by
  constructor
  · obtain ⟨b, hr⟩ := run_total ops (boot log0 e0 pin d)
    have hlit := run_lit ops _ b (fun hl => Bool.noConfusion (hl : false = true)) hin hr
    have hinv := run_inv ops _ b (boot_inv log0 e0 pin d) hr
    refine ⟨b, hr, hlit, ?_, ?_⟩
    · intro h0
      cases hl : b.sched._lightOn
      · exact hl
      · have := hlit hl
        have h00 : b.sched._brightness.val = 0 := h0
        omega
    · intro hoff
      have := hinv.2.1 hoff
      show b.sched._brightness.val = 0
      rw [this]
      rfl
  · intro elapsed total hel htot hno
    have hl := fadeLevel_pos elapsed total hel
    refine ⟨_, map_fade_eq elapsed total hel htot hno, by omega, by omega, ?_⟩
    rw [toUint8_val_of_lt _ (by omega)]

theorem run_on_implies_lit_witness :
    (boot [] (fun _ => 0) 9 60).runInRange exampleOpsHalfFade = true ∧
    (boot [] (fun _ => 0) 9 60).run exampleOpsHalfFade = some exampleBoardHalfFade ∧
    exampleBoardHalfFade.sched.isOn = true ∧
    1 ≤ exampleBoardHalfFade.sched.getBrightness.val := by
  have hrun : (boot [] (fun _ => 0) 9 60).run exampleOpsHalfFade
      = some exampleBoardHalfFade := rfl
  obtain ⟨⟨b, hb, himp, _⟩, _⟩ :=
    run_on_implies_lit [] (fun _ => 0) 9 60 exampleOpsHalfFade rfl
  rw [hrun] at hb
  cases hb
  exact ⟨rfl, hrun, rfl, himp rfl⟩

end Board
